import Mathlib

/-!
Verification development for the MultiAgentDemo repository.

The embedding covers the three cores named by the spec: the LangGraph
orchestration loop (`graph_agent.py`), the dynamic tool registry
(`tool_manager.py`), the plain chat agent (`chat_agent.py`), and the
knowledge-store layer (`knowledge_base.py`, `knowledge_manager.py`,
`knowledge_bases/chroma_knowledge.py`).

Conventions: Python dicts become association lists (`List (String × _)`)
with insertion-order semantics; Python exceptions become `Except String`;
floating-point relevance scores become `ℚ`; the opaque completion service
and the Chroma client are parameters of the embedding, except where a
definition is explicitly marked as modelled from the spec.
-/

/-! ## Messages (langchain_core.messages as used by the repository) -/

/-- A tool call requested by the model: name plus keyword arguments
(argument values are modelled as strings; the code never inspects them,
it forwards them as `**kwargs`). -/
structure ToolCall where
  name : String
  args : List (String × String)
deriving DecidableEq, Repr

/-- The four langchain message kinds the repository constructs or tests for:
`SystemMessage`, `HumanMessage`, `AIMessage` (with its `tool_calls`) and
`ToolMessage`. -/
inductive Message where
  | system (content : String)
  | human (content : String)
  | ai (content : String) (toolCalls : List ToolCall)
  | tool (content : String)
deriving DecidableEq, Repr

/-- `isinstance(msg, ToolMessage)` as used by `GraphAgent._agent_node`. -/
def Message.isToolMessage : Message → Bool
  | .tool _ => true
  | _ => false

/-- `isinstance(msg, SystemMessage)` as used by `GraphAgent.chat`. -/
def Message.isSystemMessage : Message → Bool
  | .system _ => true
  | _ => false

/-- `msg.content`. -/
def Message.content : Message → String
  | .system c => c
  | .human c => c
  | .ai c _ => c
  | .tool c => c

/-- The `tool_calls` attribute of an `AIMessage`; other message kinds carry
none (the graph only reads it on messages the router has checked to be
`AIMessage`). -/
def Message.toolCalls : Message → List ToolCall
  | .ai _ tcs => tcs
  | _ => []

/-! ## ToolManager (`tool_manager.py`)

A loaded tool is a callable that either returns a result string or raises
(`Except.error` carries the exception text `str(e)`).  `ToolManager.callables`
is the name-to-callable dict. -/

/-- A resolved plugin callable: `kwargs → result`, possibly raising. -/
def ToolFn : Type := List (String × String) → Except String String

/-- `ToolManager.callables`: the dict from tool name to resolved callable. -/
def ToolRegistry : Type := List (String × ToolFn)

/-- Dict lookup (`self.callables[tool_name]` / `tool_name in self.callables`). -/
def lookupCallable (reg : ToolRegistry) (n : String) : Option ToolFn :=
  (reg.find? (fun p => p.1 == n)).map (fun p => p.2)

/-- `ToolManager.run_tool`: raises `ValueError` (here `Except.error`) when the
name is not among the loaded callables; otherwise calls the callable, and
converts any exception it raises into the failure string
`执行工具 '<name>' 失败: <e>` which is returned as an ordinary result. -/
def ToolManager.runTool (reg : ToolRegistry) (toolName : String)
    (args : List (String × String)) : Except String String :=
  match lookupCallable reg toolName with
  | none => Except.error ("工具 '" ++ toolName ++ "' 不可用或未加载。")
  | some f =>
    match f args with
    | Except.ok v => Except.ok v
    | Except.error e => Except.ok ("执行工具 '" ++ toolName ++ "' 失败: " ++ e)

/-- The result string `run_tool` produces for a tool whose name is loaded
(under `lookupCallable … = some f` this is what `runTool` wraps in `ok`). -/
def runToolStr (reg : ToolRegistry) (tc : ToolCall) : String :=
  match ToolManager.runTool reg tc.name tc.args with
  | Except.ok v => v
  | Except.error e => e

/-- Python `s.split(",")` on the character list: splits at every comma and
keeps empty pieces (`"a,,b" → ["a","","b"]`, `"" → [""]`). -/
def splitCommaChars : List Char → List (List Char)
  | [] => [[]]
  | c :: rest =>
    match splitCommaChars rest with
    | [] => [[]]
    | p :: ps => if c = ',' then [] :: p :: ps else (c :: p) :: ps

/-- Python `s.split(",")`. -/
def pySplitComma (s : String) : List String :=
  (splitCommaChars s.data).map (fun l => String.mk l)

/-- Python `s.strip()`: drop whitespace from both ends. -/
def pyStrip (s : String) : String :=
  String.mk (((s.data.dropWhile Char.isWhitespace).reverse.dropWhile Char.isWhitespace).reverse)

/-- Python `",".join(ts)`. -/
def pyJoinComma : List String → String
  | [] => ""
  | [t] => t
  | t :: ts => t ++ "," ++ pyJoinComma ts

/-! ## GraphAgent (`graph_agent.py`)

The compiled LangGraph has three positions: the `agent` node
(`_agent_node`, the one place the completion service is invoked), the
`action` node (`_tool_node`), and `END`.  `_build_graph` wires
`agent --router--> {action, END}` and `action --> END`.  The completion
service is an opaque collaborator `llm : List Message → LLMResponse`. -/

deriving instance DecidableEq for Except

/-- The completion service's response: content plus requested tool calls
(`{content: string}` or `{tool_calls: [...]}` in the spec's contract). -/
structure LLMResponse where
  content : String
  toolCalls : List ToolCall
deriving DecidableEq, Repr

/-- The graph's positions: the model-invocation node `agent`, the
tool-execution node `action`, and the terminal `END` (here `stop`). -/
inductive GNode where
  | agent
  | action
  | stop
deriving DecidableEq, Repr

/-- `GraphAgent._router`: routes to the tool node exactly when the last
message is an `AIMessage` with a non-empty `tool_calls` list. -/
def router (msgs : List Message) : GNode :=
  match msgs.getLast? with
  | some (Message.ai _ tcs) => if tcs = [] then GNode.stop else GNode.action
  | _ => GNode.stop

/-- The tool-execution loop of `_tool_node`: run each requested call through
`ToolManager.run_tool` in the order received, collecting the lines
`工具 <name> 的结果: <result>`; a raised exception (an unknown tool name)
aborts the loop and propagates. -/
def toolLines (reg : ToolRegistry) : List ToolCall → Except String (List String)
  | [] => Except.ok []
  | tc :: rest => do
    let r ← ToolManager.runTool reg tc.name tc.args
    let ls ← toolLines reg rest
    pure (("工具 " ++ tc.name ++ " 的结果: " ++ r) :: ls)

/-- `GraphAgent._tool_node`: reads the last message's `tool_calls`, runs the
loop above, joins the per-tool lines with a newline and wraps them in a
synthetic `AIMessage` (no `ToolMessage`). -/
def toolNode (reg : ToolRegistry) (msgs : List Message) : Except String Message := do
  let lines ← toolLines reg ((msgs.getLast?.map Message.toolCalls).getD [])
  pure (Message.ai ("基于工具调用的结果:\n" ++ String.intercalate "\n" lines ++
    "\n\n让我为您总结一下这些信息。") [])

/-- One compiled-graph run from a given node, with fuel (the graph is acyclic,
so any fuel ≥ 2 reaches `END`; a generous bound keeps the executor honest
about the wiring rather than about the bound).  Returns the visited-node
trace, the final value of the `messages` state channel (or the propagated
exception), and how many times the completion service was invoked.
`AgentState` declares `messages: List[BaseMessage]` with no reducer
annotation, so a node's returned `{"messages": [...]}` overwrites the
channel.  The `agent` case is `_agent_node`: it first drops every
`ToolMessage` from the current channel value (the DeepSeek-compatibility
filter), invokes the model once, overwrites the channel with the one-element
list holding the response, and follows the conditional edge chosen by
`_router`; the `action` case is `_tool_node` (which reads the channel's last
message) followed by the fixed edge to `END`. -/
def runAux (llm : List Message → LLMResponse) (reg : ToolRegistry) :
    Nat → GNode → List Message → List GNode × Except String (List Message) × Nat
  | _, GNode.stop, msgs => ([], Except.ok msgs, 0)
  | 0, _, msgs => ([], Except.ok msgs, 0)
  | Nat.succ f, GNode.agent, msgs =>
    let cleaned := msgs.filter (fun m => !m.isToolMessage)
    let resp := llm cleaned
    let msgs' := [Message.ai resp.content resp.toolCalls]
    let rest := runAux llm reg f (router msgs') msgs'
    (GNode.agent :: rest.1, rest.2.1, rest.2.2 + 1)
  | Nat.succ f, GNode.action, msgs =>
    match toolNode reg msgs with
    | Except.ok m =>
      let rest := runAux llm reg f GNode.stop [m]
      (GNode.action :: rest.1, rest.2.1, rest.2.2)
    | Except.error e => ([GNode.action], Except.error e, 0)

/-- `self.graph.invoke({"messages": messages})`: run the compiled graph from
its entry point, the `agent` node. -/
def graphInvoke (llm : List Message → LLMResponse) (reg : ToolRegistry)
    (msgs : List Message) : List GNode × Except String (List Message) × Nat :=
  runAux llm reg 8 GNode.agent msgs

/-! ## ChatAgent (`chat_agent.py`)

`ChatAgent.chat` appends the user message to the held history, invokes the
completion service inside a try block, and on success appends the reply as an
`AIMessage`; any exception is converted into the error string
`对话出错: <e>` which is returned to the caller.  The completion service is
modelled as returning the already-extracted string content
(`_extract_content` is the identity on string contents) or raising. -/

/-- `ChatAgent.chat`: returns the held history after the call together with
the reply text. -/
def ChatAgent.chat (model : List Message → Except String String)
    (history : List Message) (message : String) : List Message × String :=
  let h1 := history ++ [Message.human message]
  match model h1 with
  | Except.ok content => (h1 ++ [Message.ai content []], content)
  | Except.error e => (h1, "对话出错: " ++ e)

/-! ## Knowledge data model (`knowledge_base.py`)

`KnowledgeItem`'s `created_at` timestamp and `embedding` vector are omitted:
no claim mentions them, the add path serialises the timestamp opaquely
(`isoformat`, modelled below by an opaque `now` string), and the Chroma code
never stores or returns embeddings.  Metadata values are modelled as strings
(the code stores and returns them without inspection). -/

/-- `KnowledgeItem` (dataclass): identifier, text content, optional title and
category, tag list, free-form metadata mapping. -/
structure KnowledgeItem where
  id : String
  content : String
  title : Option String
  category : Option String
  tags : List String
  metadata : List (String × String)
deriving DecidableEq, Repr

/-- `SearchResult` (dataclass): wrapped item, relevance score, 1-based rank. -/
structure SearchResult where
  item : KnowledgeItem
  score : ℚ
  rank : Nat
deriving DecidableEq, Repr

/-! ## ChromaKnowledgeBase (`knowledge_bases/chroma_knowledge.py`)

The Chroma client (`self.collection`) is an external library.  Its stored
state is a list of entries; the operations the repository calls are modelled
where needed, the unconstrained one (`collection.query`, the vector search)
stays an opaque parameter. -/

/-- One record held by the Chroma collection: id, document text, metadata. -/
structure ChromaEntry where
  id : String
  document : String
  metadata : List (String × String)
deriving DecidableEq, Repr

/-- The Chroma collection's stored state. -/
abbrev Collection : Type := List ChromaEntry

/-- What `collection.query` hands back for the single query text: parallel
lists `ids`, `documents`, `metadatas`, `distances` (already `[0]`-indexed
down to the per-query lists the code reads). -/
structure QueryReply where
  ids : List String
  documents : List String
  metadatas : List (List (String × String))
  distances : List (Option ℚ)
deriving DecidableEq, Repr

/-- Dict `.get(k)` on a metadata mapping. -/
def mdLookup (md : List (String × String)) (k : String) : Option String :=
  (md.find? (fun p => p.1 == k)).map (fun p => p.2)

/-- Python `x or None` on an optional string: the empty string is falsy. -/
def orNoneStr : Option String → Option String
  | some s => if s = "" then none else some s
  | none => none

/-- The tag parse both `get_item` and `search` perform:
`[tag.strip() for tag in metadata["tags"].split(",") if tag.strip()]`,
guarded by the truthiness of `metadata.get("tags")`. -/
def parseTags : Option String → List String
  | some s => if s = "" then [] else ((pySplitComma s).map pyStrip).filter (fun t => t ≠ "")
  | none => []

/-- The metadata keys the reader treats as standard fields. -/
def stdFields : List String := ["title", "category", "tags", "created_at"]

/-- The custom-metadata split: keep every pair whose key is not standard. -/
def customMetadata (md : List (String × String)) : List (String × String) :=
  md.filter (fun p => decide (p.1 ∉ stdFields))

/-- The `KnowledgeItem` both `get_item` and `search` reconstruct from a
document and its stored metadata (the code duplicates this block verbatim in
the two methods). -/
def itemOfEntry (id : String) (doc : String) (md : List (String × String)) :
    KnowledgeItem :=
  { id := id
    content := doc
    title := orNoneStr (mdLookup md "title")
    category := orNoneStr (mdLookup md "category")
    tags := parseTags (mdLookup md "tags")
    metadata := customMetadata md }

/-- Python dict assignment `d[k] = v`: overwrite in place when the key
exists, append otherwise. -/
def dictInsertR {α : Type} (d : List (String × α)) (k : String) (v : α) :
    List (String × α) :=
  if d.any (fun p => p.1 == k) then
    d.map (fun p => if p.1 == k then (k, v) else p)
  else d ++ [(k, v)]

/-- Python `{… , **m}`: fold the mapping `m` over the literal with dict
assignment semantics. -/
def dictMergeR (d m : List (String × String)) : List (String × String) :=
  m.foldl (fun acc p => dictInsertR acc p.1 p.2) d

/-- Python `",".join(item.tags) if item.tags else ""`. -/
def joinTags (tags : List String) : String :=
  if tags = [] then "" else pyJoinComma tags

/-- The metadata dict `add_item` builds:
title, category, serialised tags and timestamp, then `**item.metadata`.
`now` stands for the serialised `created_at` timestamp. -/
def storedMetadata (item : KnowledgeItem) (now : String) : List (String × String) :=
  dictMergeR
    [("title", item.title.getD ""), ("category", item.category.getD ""),
     ("tags", joinTags item.tags), ("created_at", now)]
    item.metadata

/-- Modelled from the spec: `collection.add` belongs to the Chroma client,
which is not part of this repository; per the spec's store contract an add
"rejects if an item with the same identifier already exists; fails with
Conflict", so the modelled client raises on a duplicate id and otherwise
appends the record. -/
def clientAdd (col : Collection) (id doc : String)
    (md : List (String × String)) : Except String Collection :=
  if col.any (fun e => e.id == id) then Except.error "Conflict"
  else Except.ok (col ++ [⟨id, doc, md⟩])

/-- Modelled from the spec: `collection.delete` belongs to the Chroma client;
per the spec "deleting an absent id is not an error", so the modelled client
removes any matching record and raises nothing. -/
def clientDelete (col : Collection) (id : String) : Except String Collection :=
  Except.ok (col.filter (fun e => e.id != id))

/-- `collection.get(ids=[id])`: the records whose id matches. -/
def clientGetById (col : Collection) (id : String) : List ChromaEntry :=
  col.filter (fun e => e.id == id)

/-- `ChromaKnowledgeBase.add_item`: builds the metadata dict, calls
`collection.add` inside a try block; any exception is logged and converted to
`False`, leaving the collection as it was. -/
def ChromaKnowledgeBase.addItem (col : Collection) (item : KnowledgeItem)
    (now : String) : Bool × Collection :=
  match clientAdd col item.id item.content (storedMetadata item now) with
  | Except.ok col' => (true, col')
  | Except.error _ => (false, col)

/-- `ChromaKnowledgeBase.get_item`: `collection.get(ids=[id])`, `None` when
no id matched, otherwise the item rebuilt from the first document and its
metadata. -/
def ChromaKnowledgeBase.getItem (col : Collection) (id : String) :
    Option KnowledgeItem :=
  match clientGetById col id with
  | [] => none
  | e :: _ => some (itemOfEntry id e.document e.metadata)

/-- `ChromaKnowledgeBase.delete_item`: `collection.delete(ids=[id])` inside a
try block, `True` on return, `False` had the client raised (the modelled
client never does). -/
def ChromaKnowledgeBase.deleteItem (col : Collection) (id : String) :
    Bool × Collection :=
  match clientDelete col id with
  | Except.ok col' => (true, col')
  | Except.error _ => (false, col)

/-- `1.0 - distance if distance is not None else 0.0`. -/
def scoreOfDistance : Option ℚ → ℚ
  | some d => 1 - d
  | none => 0

/-- The result-building loop of `ChromaKnowledgeBase.search`: `zip` over the
four parallel lists (truncating at the shortest, as Python `zip` does) with
`enumerate`'s index `idx`; rank is `idx + 1`. -/
def buildResults : List String → List String → List (List (String × String)) →
    List (Option ℚ) → Nat → List SearchResult
  | i :: is, d :: ds, m :: ms, dist :: dists, idx =>
    { item := itemOfEntry i d m, score := scoreOfDistance dist, rank := idx + 1 } ::
      buildResults is ds ms dists (idx + 1)
  | _, _, _, _, _ => []

/-- The `where` clause `search` passes to the client:
`filter_dict.copy() if filter_dict else None` (empty dict is falsy). -/
def whereOf : Option (List (String × String)) → Option (List (String × String))
  | some l => if l = [] then none else some l
  | none => none

/-- A knowledge store as the manager holds it: the Chroma-backed store, with
the client's vector search (`collection.query`) as an opaque function of the
query text, `n_results` bound and `where` clause, which may raise. -/
structure ChromaKnowledgeBase where
  backendQuery : String → Nat → Option (List (String × String)) →
    Except String QueryReply

/-- `ChromaKnowledgeBase.search`: queries the client inside a try block; any
exception is logged and downgraded to the empty result list; otherwise the
results are built in reply order with ranks `1, 2, …`. -/
def ChromaKnowledgeBase.search (kb : ChromaKnowledgeBase) (query : String)
    (topK : Nat) (filterDict : Option (List (String × String))) :
    List SearchResult :=
  match kb.backendQuery query topK (whereOf filterDict) with
  | Except.error _ => []
  | Except.ok r =>
    if r.ids = [] then [] else buildResults r.ids r.documents r.metadatas r.distances 0

/-! ## KnowledgeManager (`knowledge_manager.py`) -/

/-- `KnowledgeManager`: the `name → knowledge base` dict (insertion order). -/
structure KnowledgeManager where
  knowledge_bases : List (String × ChromaKnowledgeBase)

/-- `list_knowledge_bases()`: the registered names. -/
def KnowledgeManager.listKnowledgeBases (m : KnowledgeManager) : List String :=
  m.knowledge_bases.map Prod.fst

/-- `get_knowledge_base(name)`: dict `.get`. -/
def KnowledgeManager.getKnowledgeBase (m : KnowledgeManager) (n : String) :
    Option ChromaKnowledgeBase :=
  (m.knowledge_bases.find? (fun p => p.1 == n)).map (fun p => p.2)

/-- `KnowledgeManager.search`: empty list when the name is unknown, else the
store's own search. -/
def KnowledgeManager.search (m : KnowledgeManager) (kbName query : String)
    (topK : Nat) (filterDict : Option (List (String × String))) :
    List SearchResult :=
  match m.getKnowledgeBase kbName with
  | none => []
  | some kb => kb.search query topK filterDict

/-- Assoc lookup on the results mapping `search_all` returns. -/
def lookupResults (rs : List (String × List SearchResult)) (n : String) :
    Option (List SearchResult) :=
  (rs.find? (fun p => p.1 == n)).map (fun p => p.2)

/-- `KnowledgeManager.search_all`: target set is
`kb_names if kb_names else self.list_knowledge_bases()` (both `None` and the
empty list are falsy, so both mean "all registered stores"); each targeted
name still registered contributes one mapping entry with that store's search
results. -/
def KnowledgeManager.searchAll (m : KnowledgeManager) (query : String)
    (topK : Nat) (filterDict : Option (List (String × String)))
    (kbNames : Option (List String)) : List (String × List SearchResult) :=
  let searchKbs := match kbNames with
    | some l => if l = [] then m.listKnowledgeBases else l
    | none => m.listKnowledgeBases
  searchKbs.foldl (fun acc n =>
    if (m.getKnowledgeBase n).isSome then
      dictInsertR acc n (m.search n query topK filterDict)
    else acc) []

/-! ## Helper definitions and lemmas for the tool round -/

/-- The line `_tool_node` records for one tool call:
`工具 <name> 的结果: <result>`. -/
def toolLine (reg : ToolRegistry) (tc : ToolCall) : String :=
  "工具 " ++ tc.name ++ " 的结果: " ++ runToolStr reg tc

/-- The synthetic assistant content `_tool_node` produces from a round of
tool calls, in the order received. -/
def combinedToolReply (reg : ToolRegistry) (tcs : List ToolCall) : String :=
  "基于工具调用的结果:\n" ++ String.intercalate "\n" (tcs.map (toolLine reg)) ++
    "\n\n让我为您总结一下这些信息。"

lemma runTool_isOk (reg : ToolRegistry) (tc : ToolCall)
    (h : (lookupCallable reg tc.name).isSome) :
    ToolManager.runTool reg tc.name tc.args = Except.ok (runToolStr reg tc) := by
  obtain ⟨f, hf⟩ := Option.isSome_iff_exists.mp h
  cases hfa : f tc.args <;> simp [ToolManager.runTool, runToolStr, hf, hfa]

lemma toolLines_ok (reg : ToolRegistry) :
    ∀ (tcs : List ToolCall), (∀ tc ∈ tcs, (lookupCallable reg tc.name).isSome) →
    toolLines reg tcs = Except.ok (tcs.map (toolLine reg))
  | [], _ => by simp [toolLines]
  | tc :: rest, h => by
    have h1 := runTool_isOk reg tc (h tc (by simp))
    have ih := toolLines_ok reg rest (fun x hx => h x (by simp [hx]))
    simp [toolLines, h1, ih, toolLine]
    rfl

lemma router_singleton_ai (c : String) (tcs : List ToolCall) :
    router [Message.ai c tcs] =
      if tcs = [] then GNode.stop else GNode.action := by
  simp [router]

lemma toolNode_ok (reg : ToolRegistry) (msgs : List Message) (c : String)
    (tcs : List ToolCall) (hlast : msgs.getLast? = some (Message.ai c tcs))
    (hreg : ∀ tc ∈ tcs, (lookupCallable reg tc.name).isSome) :
    toolNode reg msgs =
      Except.ok (Message.ai (combinedToolReply reg tcs) []) := by
  simp [toolNode, hlast, Message.toolCalls, toolLines_ok reg tcs hreg,
    combinedToolReply]

/-! ## Theorems -/

/-- C1: in every turn whose completion-service response requests at least one
tool call, the compiled graph visits exactly the node sequence
`agent, action`: one round of tool execution directly followed by `END`
(the trace has no `agent` after `action`, so `CALL_TOOLS` never re-enters
`AWAIT_MODEL`), and the completion service is invoked exactly once. -/
theorem graphInvoke_tool_round_once (llm : List Message → LLMResponse)
    (reg : ToolRegistry) (msgs : List Message)
    (h : (llm (msgs.filter (fun m => !m.isToolMessage))).toolCalls ≠ []) :
    (graphInvoke llm reg msgs).1 = [GNode.agent, GNode.action] ∧
    (graphInvoke llm reg msgs).2.2 = 1 := by
  have hr : router [Message.ai
      (llm (msgs.filter (fun m => !m.isToolMessage))).content
      (llm (msgs.filter (fun m => !m.isToolMessage))).toolCalls] = GNode.action := by
    rw [router_singleton_ai]
    simp [h]
  cases htn : toolNode reg [Message.ai
      (llm (msgs.filter (fun m => !m.isToolMessage))).content
      (llm (msgs.filter (fun m => !m.isToolMessage))).toolCalls] with
  | ok m =>
    constructor <;>
      simp [graphInvoke, show (8 : Nat) = Nat.succ 7 from rfl, runAux,
        show (7 : Nat) = Nat.succ 6 from rfl, hr, htn]
  | error e =>
    constructor <;>
      simp [graphInvoke, show (8 : Nat) = Nat.succ 7 from rfl, runAux,
        show (7 : Nat) = Nat.succ 6 from rfl, hr, htn]

/-- C1 witness: a stub service that requests one tool call; the trace is one
model invocation followed by one tool round, and the service is invoked
exactly once. -/
theorem graphInvoke_tool_round_once_witness :
    (graphInvoke (fun _ => ⟨"", [⟨"t", []⟩]⟩)
        [("t", fun _ => Except.ok "fixed text")] [Message.human "q"]).1 =
      [GNode.agent, GNode.action] ∧
    (graphInvoke (fun _ => ⟨"", [⟨"t", []⟩]⟩)
        [("t", fun _ => Except.ok "fixed text")] [Message.human "q"]).2.2 = 1 :=
  graphInvoke_tool_round_once (fun _ => ⟨"", [⟨"t", []⟩]⟩)
    [("t", fun _ => Except.ok "fixed text")] [Message.human "q"] (by decide)

/-- C2 counterexample: the claim quantifies over every list of requested tool
calls, but a call naming a tool that is not in the registry makes
`run_tool` raise `ValueError`, which `_tool_node` does not catch: the graph
invocation aborts with that exception and the turn produces no synthetic
assistant reply at all (and tool calls after the unknown one are never
invoked). -/
theorem toolRound_unknown_tool_aborts :
    graphInvoke (fun _ => ⟨"", [⟨"ghost", []⟩]⟩) [] [Message.human "hi"] =
      ([GNode.agent, GNode.action],
       Except.error "工具 'ghost' 不可用或未加载。", 1) := by
  decide

/-- C2 amended: when every requested tool call names a registered tool, the
orchestrator invokes each through the registry in exactly the order
received, and the turn ends with one synthetic assistant-role message
(`Message.ai`, not a tool-result message) whose content is the concatenation
of the per-tool lines `工具 <name> 的结果: <result-or-failure-string>` in
request order; the completion service is invoked exactly once, never
re-invoked to summarize. -/
theorem graphInvoke_tool_round_reply (llm : List Message → LLMResponse)
    (reg : ToolRegistry) (msgs : List Message) (c : String) (tcs : List ToolCall)
    (hresp : llm (msgs.filter (fun m => !m.isToolMessage)) = ⟨c, tcs⟩)
    (hne : tcs ≠ [])
    (hreg : ∀ tc ∈ tcs, (lookupCallable reg tc.name).isSome) :
    graphInvoke llm reg msgs =
      ([GNode.agent, GNode.action],
       Except.ok [Message.ai (combinedToolReply reg tcs) []],
       1) := by
  have hr : router [Message.ai c tcs] = GNode.action := by
    rw [router_singleton_ai]
    simp [hne]
  have htn := toolNode_ok reg [Message.ai c tcs] c tcs (by simp) hreg
  simp [graphInvoke, show (8 : Nat) = Nat.succ 7 from rfl, runAux,
    show (7 : Nat) = Nat.succ 6 from rfl, hresp, hr, htn]

/-- C2 witness: one requested call of a registered tool returning fixed
text; the turn's reply is the synthetic assistant message built from that
text and the service is invoked once. -/
theorem graphInvoke_tool_round_reply_witness :
    graphInvoke (fun _ => ⟨"", [⟨"t", []⟩]⟩)
        [("t", fun _ => Except.ok "fixed text")] [Message.human "q"] =
      ([GNode.agent, GNode.action],
       Except.ok [Message.ai (combinedToolReply
         [("t", fun _ => Except.ok "fixed text")] [⟨"t", []⟩]) []],
       1) :=
  graphInvoke_tool_round_reply (fun _ => ⟨"", [⟨"t", []⟩]⟩)
    [("t", fun _ => Except.ok "fixed text")] [Message.human "q"] "" [⟨"t", []⟩]
    rfl (by decide) (by decide)

/-- C3: `ToolRegistry.invoke` (`ToolManager.run_tool`) on a name not present
in the registry fails with the NotFound error (the raised
`ValueError("工具 '<name>' 不可用或未加载。")`); on a known name whose
callable raises, the exception is never propagated: the call returns `ok`
with a descriptive failure string that contains the tool's name. -/
theorem runTool_notFound_and_catches (reg : ToolRegistry) (toolName : String)
    (args : List (String × String)) :
    (lookupCallable reg toolName = none →
      ToolManager.runTool reg toolName args =
        Except.error ("工具 '" ++ toolName ++ "' 不可用或未加载。")) ∧
    (∀ f e, lookupCallable reg toolName = some f → f args = Except.error e →
      ToolManager.runTool reg toolName args =
        Except.ok ("执行工具 '" ++ toolName ++ "' 失败: " ++ e) ∧
      ∃ s t, "执行工具 '" ++ toolName ++ "' 失败: " ++ e = s ++ toolName ++ t) := by
  constructor
  · intro h
    simp [ToolManager.runTool, h]
  · intro f e hf he
    refine ⟨by simp [ToolManager.runTool, hf, he], "执行工具 '", "' 失败: " ++ e,
      by rw [String.append_assoc]⟩

/-- C3 witness: an unknown name fails with the NotFound error, and a known
callable that raises is converted into an ok failure string naming the tool. -/
theorem runTool_notFound_and_catches_witness :
    (ToolManager.runTool [] "ghost" [] =
      Except.error ("工具 '" ++ "ghost" ++ "' 不可用或未加载。")) ∧
    (ToolManager.runTool [("boom", fun _ => Except.error "kaput")] "boom" [] =
        Except.ok ("执行工具 '" ++ "boom" ++ "' 失败: " ++ "kaput") ∧
      ∃ s t, "执行工具 '" ++ "boom" ++ "' 失败: " ++ "kaput" = s ++ "boom" ++ t) :=
  ⟨(runTool_notFound_and_catches [] "ghost" []).1 rfl,
   (runTool_notFound_and_catches [("boom", fun _ => Except.error "kaput")] "boom" []).2
     (fun _ => Except.error "kaput") "kaput" rfl rfl⟩

/-- C4 counterexample: the claim says a failed completion call leaves the
conversation state exactly as it was before the turn — in particular that
the incoming user message is not appended.  `ChatAgent.chat` appends the
user message before the try block, so after a failing call on an empty
history the held history is no longer empty. -/
theorem chat_error_mutates_history :
    (ChatAgent.chat (fun _ => Except.error "boom") [] "hi").1 ≠ ([] : List Message) := by
  decide

/-- C4 amended: when the completion call raises, `ChatAgent.chat` surfaces
the explicit error string `对话出错: <e>` to the caller and appends no
assistant message; the held history gains exactly the incoming user message
(which, contrary to the claim, does remain appended). -/
theorem chat_error_surfaced (model : List Message → Except String String)
    (history : List Message) (message e : String)
    (h : model (history ++ [Message.human message]) = Except.error e) :
    ChatAgent.chat model history message =
      (history ++ [Message.human message], "对话出错: " ++ e) := by
  simp [ChatAgent.chat, h]

/-- C4 witness: a concrete failing completion call. -/
theorem chat_error_surfaced_witness :
    ChatAgent.chat (fun _ => Except.error "boom") [] "hi" =
      ([] ++ [Message.human "hi"], "对话出错: " ++ "boom") :=
  chat_error_surfaced (fun _ => Except.error "boom") [] "hi" "boom" rfl

/-- C6: `add_item` on an identifier already present in the collection
reports failure (`False`) — the modelled client rejects the duplicate with
Conflict, `add_item` catches it — and the collection, hence the previously
stored item under that identifier, is unchanged. -/
theorem addItem_conflict_unchanged (col : Collection) (item : KnowledgeItem)
    (now : String) (h : col.any (fun e => e.id == item.id) = true) :
    ChromaKnowledgeBase.addItem col item now = (false, col) ∧
    ChromaKnowledgeBase.getItem (ChromaKnowledgeBase.addItem col item now).2 item.id =
      ChromaKnowledgeBase.getItem col item.id := by
  constructor
  · simp [ChromaKnowledgeBase.addItem, clientAdd, h]
  · simp [ChromaKnowledgeBase.addItem, clientAdd, h]

/-- C6 witness: adding a second item with id `a` fails and leaves the stored
item unchanged. -/
theorem addItem_conflict_unchanged_witness :
    ChromaKnowledgeBase.addItem [⟨"a", "old", []⟩]
        ⟨"a", "new", none, none, [], []⟩ "t1" = (false, [⟨"a", "old", []⟩]) ∧
    ChromaKnowledgeBase.getItem
        (ChromaKnowledgeBase.addItem [⟨"a", "old", []⟩]
          ⟨"a", "new", none, none, [], []⟩ "t1").2 "a" =
      ChromaKnowledgeBase.getItem [⟨"a", "old", []⟩] "a" :=
  addItem_conflict_unchanged [⟨"a", "old", []⟩] ⟨"a", "new", none, none, [], []⟩ "t1"
    (by decide)

lemma dictInsertR_append {α : Type} (acc : List (String × α)) (k : String) (v : α)
    (h : ∀ p ∈ acc, p.1 ≠ k) : dictInsertR acc k v = acc ++ [(k, v)] := by
  have ha : acc.any (fun p => p.1 == k) = false := by
    simp only [List.any_eq_false]
    intro p hp
    simpa using h p hp
  simp [dictInsertR, ha]

lemma getKnowledgeBase_isSome_of_mem (m : KnowledgeManager) (n : String)
    (h : n ∈ m.listKnowledgeBases) : (m.getKnowledgeBase n).isSome := by
  obtain ⟨p, hp, rfl⟩ := List.mem_map.mp h
  unfold KnowledgeManager.getKnowledgeBase
  cases hfind : m.knowledge_bases.find? (fun x => x.1 == p.1) with
  | none =>
    have := List.find?_eq_none.mp hfind p hp
    simp at this
  | some x => simp

lemma searchAll_foldl (m : KnowledgeManager) (q : String) (k : Nat)
    (f : Option (List (String × String))) :
    ∀ (names : List String) (acc : List (String × List SearchResult)),
    (∀ n ∈ names, n ∈ m.listKnowledgeBases) →
    (∀ p ∈ acc, p.1 ∉ names) →
    names.Nodup →
    names.foldl (fun acc n =>
        if (m.getKnowledgeBase n).isSome then
          dictInsertR acc n (m.search n q k f)
        else acc) acc =
      acc ++ names.map (fun n => (n, m.search n q k f))
  | [], acc, _, _, _ => by simp
  | n :: rest, acc, hmem, hdisj, hnd => by
    have hsome : (m.getKnowledgeBase n).isSome :=
      getKnowledgeBase_isSome_of_mem m n (hmem n (by simp))
    have hins : dictInsertR acc n (m.search n q k f) = acc ++ [(n, m.search n q k f)] :=
      dictInsertR_append acc n _ (fun p hp => by
        have := hdisj p hp
        simp only [List.mem_cons, not_or] at this
        exact this.1)
    have hrest := searchAll_foldl m q k f rest (acc ++ [(n, m.search n q k f)])
      (fun x hx => hmem x (by simp [hx]))
      (by
        intro p hp
        rcases List.mem_append.mp hp with h1 | h1
        · have := hdisj p h1
          simp only [List.mem_cons, not_or] at this
          exact this.2
        · simp only [List.mem_singleton] at h1
          subst h1
          exact (List.nodup_cons.mp hnd).1)
      (List.nodup_cons.mp hnd).2
    simp [List.foldl_cons, hsome, hins, hrest]

lemma searchAll_none_eq (m : KnowledgeManager) (q : String) (k : Nat)
    (f : Option (List (String × String))) (h : m.listKnowledgeBases.Nodup) :
    m.searchAll q k f none =
      m.listKnowledgeBases.map (fun n => (n, m.search n q k f)) := by
  have := searchAll_foldl m q k f m.listKnowledgeBases []
    (fun n hn => hn) (by simp) h
  simpa [KnowledgeManager.searchAll] using this

lemma lookupResults_map_keys (g : String → List SearchResult) (n : String) :
    ∀ (l : List String), n ∈ l →
    lookupResults (l.map (fun x => (x, g x))) n = some (g n)
  | [], hmem => absurd hmem (List.not_mem_nil n)
  | a :: rest, hmem => by
    by_cases hae : a = n
    · subst hae
      simp [lookupResults, List.find?_cons]
    · have h1 : n ∈ rest := by
        rcases List.mem_cons.mp hmem with h1 | h1
        · exact absurd h1.symm hae
        · exact h1
      have hb : ((a, g a).1 == n) = false := by simp [hae]
      have ih := lookupResults_map_keys g n rest h1
      simp only [lookupResults, List.map_cons, List.find?_cons, hb] at ih ⊢
      exact ih

/-- C5: `search_all` with the default subset (`kb_names = None`) returns one
mapping entry per registered store, keyed in registration order — exactly N
entries for N stores (store names are dict keys, hence distinct); every
registered store's own search results appear under its name; and a failure
raised inside one store's backend search is caught by that store's `search`
and contributes the empty list, so it cannot abort the other stores'
entries. -/
theorem searchAll_default_entries (m : KnowledgeManager) (q : String) (k : Nat)
    (f : Option (List (String × String))) (h : m.listKnowledgeBases.Nodup) :
    (m.searchAll q k f none).map Prod.fst = m.listKnowledgeBases ∧
    (∀ n kb, m.getKnowledgeBase n = some kb →
      lookupResults (m.searchAll q k f none) n = some (kb.search q k f)) ∧
    (∀ (kb : ChromaKnowledgeBase) (e : String),
      kb.backendQuery q k (whereOf f) = Except.error e → kb.search q k f = []) := by
  refine ⟨?_, ?_, ?_⟩
  · rw [searchAll_none_eq m q k f h]
    simp [Function.comp_def]
  · intro n kb hkb
    unfold KnowledgeManager.getKnowledgeBase at hkb
    cases hfind : m.knowledge_bases.find? (fun p => p.1 == n) with
    | none => rw [hfind] at hkb; cases hkb
    | some p =>
      rw [hfind] at hkb
      have hp2 : p.2 = kb := by simpa using hkb
      have hpmem : p ∈ m.knowledge_bases := List.mem_of_find?_eq_some hfind
      have hp1 : p.1 = n := by simpa using List.find?_some hfind
      have hmem : n ∈ m.listKnowledgeBases :=
        List.mem_map.mpr ⟨p, hpmem, hp1⟩
      rw [searchAll_none_eq m q k f h,
        lookupResults_map_keys (fun x => m.search x q k f) n m.listKnowledgeBases hmem]
      have hkb' : m.getKnowledgeBase n = some kb := by
        simp [KnowledgeManager.getKnowledgeBase, hfind, hp2]
      simp [KnowledgeManager.search, hkb']
  · intro kb e he
    simp [ChromaKnowledgeBase.search, he]

/-- A store whose backend search answers one hit. -/
def kbOk : ChromaKnowledgeBase :=
  ⟨fun _ _ _ => Except.ok ⟨["a"], ["apple pie recipe"], [[]], [some 1]⟩⟩

/-- A store whose backend search raises. -/
def kbBad : ChromaKnowledgeBase := ⟨fun _ _ _ => Except.error "backend down"⟩

/-- A registry holding the two stores above. -/
def mgr2 : KnowledgeManager := ⟨[("kb1", kbOk), ("kb2", kbBad)]⟩

/-- C5 witness: over the two-store registry (one store's backend raising)
the default-subset `search_all` still has one entry per store. -/
theorem searchAll_default_entries_witness :
    (mgr2.searchAll "q" 5 none none).map Prod.fst = mgr2.listKnowledgeBases ∧
    (∀ n kb, mgr2.getKnowledgeBase n = some kb →
      lookupResults (mgr2.searchAll "q" 5 none none) n = some (kb.search "q" 5 none)) ∧
    (∀ (kb : ChromaKnowledgeBase) (e : String),
      kb.backendQuery "q" 5 (whereOf none) = Except.error e →
      kb.search "q" 5 none = []) :=
  searchAll_default_entries mgr2 "q" 5 none (by decide)

/-- C10: passing an explicitly empty list as `kb_names` is falsy in Python,
so `search_all` behaves exactly as with the default `None` subset: every
registered store is searched and contributes one mapping entry — the subset
parameter cannot express a search over zero stores. -/
theorem searchAll_empty_subset_default (m : KnowledgeManager) (q : String)
    (k : Nat) (f : Option (List (String × String)))
    (h : m.listKnowledgeBases.Nodup) :
    m.searchAll q k f (some []) = m.searchAll q k f none ∧
    (m.searchAll q k f (some [])).map Prod.fst = m.listKnowledgeBases := by
  have h1 : m.searchAll q k f (some []) = m.searchAll q k f none := rfl
  refine ⟨h1, ?_⟩
  rw [h1, searchAll_none_eq m q k f h]
  simp [Function.comp_def]

/-- C10 witness: the two-store registry, searched with an explicitly empty
subset list. -/
theorem searchAll_empty_subset_default_witness :
    mgr2.searchAll "q" 5 none (some []) = mgr2.searchAll "q" 5 none none ∧
    (mgr2.searchAll "q" 5 none (some [])).map Prod.fst = mgr2.listKnowledgeBases :=
  searchAll_empty_subset_default mgr2 "q" 5 none (by decide)

lemma buildResults_map_rank : ∀ (ids docs : List String)
    (mds : List (List (String × String))) (dists : List (Option ℚ)) (k : Nat),
    (buildResults ids docs mds dists k).map SearchResult.rank =
      List.range' (k + 1) (buildResults ids docs mds dists k).length
  | [], _, _, _, _ => by simp [buildResults]
  | _ :: _, [], _, _, _ => by simp [buildResults]
  | _ :: _, _ :: _, [], _, _ => by simp [buildResults]
  | _ :: _, _ :: _, _ :: _, [], _ => by simp [buildResults]
  | i :: ids, d :: docs, m :: mds, dist :: dists, k => by
    have ih := buildResults_map_rank ids docs mds dists (k + 1)
    simp [buildResults, ih, List.range'_succ]

lemma buildResults_map_score : ∀ (ids docs : List String)
    (mds : List (List (String × String))) (dists : List (Option ℚ)) (k : Nat),
    ∃ n, (buildResults ids docs mds dists k).map SearchResult.score =
      (dists.take n).map scoreOfDistance
  | [], _, _, _, _ => ⟨0, by simp [buildResults]⟩
  | _ :: _, [], _, _, _ => ⟨0, by simp [buildResults]⟩
  | _ :: _, _ :: _, [], _, _ => ⟨0, by simp [buildResults]⟩
  | _ :: _, _ :: _, _ :: _, [], _ => ⟨0, by simp [buildResults]⟩
  | i :: ids, d :: docs, m :: mds, dist :: dists, k => by
    obtain ⟨n, hn⟩ := buildResults_map_score ids docs mds dists (k + 1)
    exact ⟨n + 1, by simp [buildResults, hn]⟩

lemma chain'_score_of_le : ∀ (dists : List (Option ℚ)),
    (∀ d ∈ dists, d.isSome) →
    List.Chain' (fun a b => (a.getD 0 : ℚ) ≤ b.getD 0) dists →
    List.Chain' (fun a b : Option ℚ => scoreOfDistance b ≤ scoreOfDistance a) dists
  | [], _, _ => by simp
  | [d], _, _ => by simp
  | a :: b :: rest, hsome, hch => by
    rw [List.chain'_cons] at hch ⊢
    obtain ⟨x, hx⟩ := Option.isSome_iff_exists.mp (hsome a (by simp))
    obtain ⟨y, hy⟩ := Option.isSome_iff_exists.mp (hsome b (by simp))
    refine ⟨?_, chain'_score_of_le (b :: rest)
      (fun d hd => hsome d (List.mem_cons_of_mem a hd)) hch.2⟩
    subst hx
    subst hy
    have h1 := hch.1
    simp only [Option.getD_some] at h1
    simp only [scoreOfDistance]
    linarith

/-- C9: every result set `ChromaKnowledgeBase.search` returns carries ranks
that are exactly `1..N`, strictly increasing in list order; and whenever the
backend reply exists and lists its (present) distances in non-decreasing
order — the Chroma client returns nearest-first — the scores
`1 - distance` are non-increasing across consecutive results. -/
theorem search_rank_score_invariant (kb : ChromaKnowledgeBase) (q : String)
    (topK : Nat) (f : Option (List (String × String))) :
    ((kb.search q topK f).map SearchResult.rank =
      List.range' 1 (kb.search q topK f).length) ∧
    (∀ r, kb.backendQuery q topK (whereOf f) = Except.ok r →
      (∀ d ∈ r.distances, d.isSome) →
      List.Chain' (fun a b => (a.getD 0 : ℚ) ≤ b.getD 0) r.distances →
      List.Chain' (fun a b => b ≤ a) ((kb.search q topK f).map SearchResult.score)) := by
  constructor
  · unfold ChromaKnowledgeBase.search
    cases hq : kb.backendQuery q topK (whereOf f) with
    | error e => simp
    | ok r =>
      by_cases hids : r.ids = []
      · simp [hids]
      · simpa [hids] using buildResults_map_rank r.ids r.documents r.metadatas r.distances 0
  · intro r hq hsome hch
    unfold ChromaKnowledgeBase.search
    rw [hq]
    by_cases hids : r.ids = []
    · simp [hids]
    · obtain ⟨n, hn⟩ := buildResults_map_score r.ids r.documents r.metadatas r.distances 0
      have h1 := chain'_score_of_le r.distances hsome hch
      have h2 := h1.take n
      have h3 : List.Chain' (fun a b : ℚ => b ≤ a)
          ((r.distances.take n).map scoreOfDistance) :=
        List.chain'_map_of_chain' scoreOfDistance (fun a b hab => hab) h2
      simpa [hids, hn] using h3

/-- The concrete store behind the C9 witness: two hits at distances 1/4 and
1/2. -/
def ckb : ChromaKnowledgeBase :=
  ⟨fun _ _ _ => Except.ok ⟨["a", "b"], ["d1", "d2"], [[], []],
    [some (1/4), some (1/2)]⟩⟩

/-- C9 witness: the two-hit store's result set has ranks `[1, 2]` and
non-increasing scores. -/
theorem search_rank_score_invariant_witness :
    ((ckb.search "q" 5 none).map SearchResult.rank =
      List.range' 1 (ckb.search "q" 5 none).length) ∧
    List.Chain' (fun a b => b ≤ a) ((ckb.search "q" 5 none).map SearchResult.score) :=
  ⟨(search_rank_score_invariant ckb "q" 5 none).1,
   (search_rank_score_invariant ckb "q" 5 none).2
     ⟨["a", "b"], ["d1", "d2"], [[], []], [some (1/4), some (1/2)]⟩ rfl
     (by decide)
     (by
       refine List.chain'_cons.mpr ⟨?_, by simp⟩
       simp only [Option.getD_some]
       norm_num)⟩

lemma dictMergeR_append : ∀ (m d : List (String × String)),
    (∀ p ∈ m, ∀ q ∈ d, p.1 ≠ q.1) → (m.map Prod.fst).Nodup →
    dictMergeR d m = d ++ m
  | [], d, _, _ => by simp [dictMergeR]
  | p :: rest, d, hdisj, hnd => by
    have h1 : dictInsertR d p.1 p.2 = d ++ [(p.1, p.2)] :=
      dictInsertR_append d p.1 p.2
        (fun q hq => (hdisj p (List.mem_cons_self p rest) q hq).symm)
    have hdisj' : ∀ x ∈ rest, ∀ q ∈ d ++ [(p.1, p.2)], x.1 ≠ q.1 := by
      intro x hx q hq
      rcases List.mem_append.mp hq with hq1 | hq1
      · exact hdisj x (List.mem_cons_of_mem p hx) q hq1
      · simp only [List.mem_singleton] at hq1
        subst hq1
        intro hEq
        exact (List.nodup_cons.mp hnd).1 (List.mem_map.mpr ⟨x, hx, hEq⟩)
    have ih := dictMergeR_append rest (d ++ [(p.1, p.2)]) hdisj'
      (List.nodup_cons.mp hnd).2
    calc dictMergeR d (p :: rest)
        = dictMergeR (dictInsertR d p.1 p.2) rest := by simp [dictMergeR]
      _ = dictMergeR (d ++ [(p.1, p.2)]) rest := by rw [h1]
      _ = (d ++ [(p.1, p.2)]) ++ rest := ih
      _ = d ++ p :: rest := by simp

/-- C8 counterexample: the claim quantifies over every valid item, but the
store serialises tags by joining them with commas and re-parses them by
splitting on commas, so a tag that itself contains a comma does not survive
the round trip: adding a fresh, non-empty item with the single tag
`"a,b"` and reading it back yields the tags `["a", "b"]`. -/
theorem roundtrip_comma_tag_fails :
    ((ChromaKnowledgeBase.getItem
        (ChromaKnowledgeBase.addItem ([] : Collection)
          ⟨"a", "c", none, none, ["a,b"], []⟩ "t0").2 "a").map
      KnowledgeItem.tags) = some ["a", "b"] ∧
    (["a", "b"] : List String) ≠ ["a,b"] := by
  decide

/-- C8 amended: for every valid item (non-empty content, fresh identifier)
whose title and category are not the empty string, whose tag list survives
the comma-join/comma-split serialisation (no commas, no surrounding
whitespace, no empty tags), and whose metadata keys are distinct and avoid
the reserved field names `title`, `category`, `tags`, `created_at`, a
successful `add_item` followed by `get_item` of the same identifier returns
an item equal to the one added in content, title, category, tags and
metadata. -/
theorem addItem_getItem_roundtrip (col : Collection) (item : KnowledgeItem)
    (now : String)
    (hfresh : ∀ e ∈ col, e.id ≠ item.id)
    (hcontent : item.content ≠ "")
    (htitle : item.title ≠ some "")
    (hcat : item.category ≠ some "")
    (htags : parseTags (some (joinTags item.tags)) = item.tags)
    (hkeys : ∀ p ∈ item.metadata, p.1 ∉ stdFields)
    (hnodup : (item.metadata.map Prod.fst).Nodup) :
    (ChromaKnowledgeBase.addItem col item now).1 = true ∧
    ∃ it, ChromaKnowledgeBase.getItem
        (ChromaKnowledgeBase.addItem col item now).2 item.id = some it ∧
      it.content = item.content ∧ it.title = item.title ∧
      it.category = item.category ∧ it.tags = item.tags ∧
      it.metadata = item.metadata := by
  have hany : col.any (fun e => e.id == item.id) = false := by
    simp only [List.any_eq_false]
    intro e he
    simpa using hfresh e he
  have hmd : storedMetadata item now =
      [("title", item.title.getD ""), ("category", item.category.getD ""),
       ("tags", joinTags item.tags), ("created_at", now)] ++ item.metadata := by
    apply dictMergeR_append item.metadata _ ?_ hnodup
    intro p hp q hq
    have hnp := hkeys p hp
    intro hEq
    apply hnp
    rw [hEq]
    fin_cases hq <;> simp [stdFields]
  have hfil : clientGetById
      (col ++ [(⟨item.id, item.content, storedMetadata item now⟩ : ChromaEntry)])
      item.id =
      [(⟨item.id, item.content, storedMetadata item now⟩ : ChromaEntry)] := by
    unfold clientGetById
    rw [List.filter_append]
    have h1 : col.filter (fun e => e.id == item.id) = [] := by
      simp only [List.filter_eq_nil_iff]
      intro e he
      simpa using hfresh e he
    simp [h1]
  have hstep : (ChromaKnowledgeBase.addItem col item now).2 =
      col ++ [(⟨item.id, item.content, storedMetadata item now⟩ : ChromaEntry)] := by
    simp [ChromaKnowledgeBase.addItem, clientAdd, hany]
  refine ⟨by simp [ChromaKnowledgeBase.addItem, clientAdd, hany],
    itemOfEntry item.id item.content (storedMetadata item now), ?_, ?_, ?_, ?_, ?_, ?_⟩
  · rw [hstep]
    unfold ChromaKnowledgeBase.getItem
    rw [hfil]
  · rfl
  · show orNoneStr (mdLookup (storedMetadata item now) "title") = item.title
    rw [hmd]
    cases htv : item.title with
    | none => simp [mdLookup, List.find?_cons, orNoneStr]
    | some t =>
      have ht : t ≠ "" := by
        intro hEq
        subst hEq
        exact htitle htv
      simp [mdLookup, List.find?_cons, orNoneStr, ht]
  · show orNoneStr (mdLookup (storedMetadata item now) "category") = item.category
    rw [hmd]
    cases hcv : item.category with
    | none => simp [mdLookup, List.find?_cons, orNoneStr]
    | some c =>
      have hc : c ≠ "" := by
        intro hEq
        subst hEq
        exact hcat hcv
      simp [mdLookup, List.find?_cons, orNoneStr, hc]
  · show parseTags (mdLookup (storedMetadata item now) "tags") = item.tags
    rw [hmd]
    have : mdLookup
        ([("title", item.title.getD ""), ("category", item.category.getD ""),
          ("tags", joinTags item.tags), ("created_at", now)] ++ item.metadata)
        "tags" = some (joinTags item.tags) := by
      simp [mdLookup, List.find?_cons]
    rw [this]
    exact htags
  · show customMetadata (storedMetadata item now) = item.metadata
    rw [hmd]
    rw [customMetadata, List.filter_append]
    have h1 : ([("title", item.title.getD ""), ("category", item.category.getD ""),
        ("tags", joinTags item.tags), ("created_at", now)]).filter
        (fun p => decide (p.1 ∉ stdFields)) = [] := by
      simp [stdFields]
    have h2 : item.metadata.filter (fun p => decide (p.1 ∉ stdFields)) = item.metadata := by
      apply List.filter_eq_self.mpr
      intro p hp
      simpa using hkeys p hp
    rw [h1, h2]
    simp

/-- C8 witness: a concrete item with well-behaved tags and metadata
round-trips through `add_item` and `get_item`. -/
theorem addItem_getItem_roundtrip_witness :
    (ChromaKnowledgeBase.addItem ([] : Collection)
      ⟨"w", "hello", some "T", none, ["alpha", "beta"], [("source", "unit")]⟩ "t0").1 = true ∧
    ∃ it, ChromaKnowledgeBase.getItem
        (ChromaKnowledgeBase.addItem ([] : Collection)
          ⟨"w", "hello", some "T", none, ["alpha", "beta"], [("source", "unit")]⟩ "t0").2
        "w" = some it ∧
      it.content = "hello" ∧ it.title = some "T" ∧
      it.category = (none : Option String) ∧ it.tags = ["alpha", "beta"] ∧
      it.metadata = [("source", "unit")] :=
  addItem_getItem_roundtrip ([] : Collection)
    ⟨"w", "hello", some "T", none, ["alpha", "beta"], [("source", "unit")]⟩ "t0"
    (by decide) (by decide) (by decide) (by decide) (by decide) (by decide) (by decide)

/-- C7 counterexample: the claim says `delete` on an absent identifier
returns `success = false`.  The Chroma client's delete of an absent id is
not an error (the spec says so itself), so `delete_item` takes the
no-exception path and returns `True`: deleting `x` from an empty store
reports success. -/
theorem deleteItem_absent_returns_true :
    ChromaKnowledgeBase.deleteItem ([] : Collection) "x" = (true, []) := by
  decide

/-- C7 amended: `delete_item` on an identifier not present in the store
never raises (it is a total function into `Bool × Collection`), leaves the
store's contents unchanged, but reports `success = true`, not `false`: the
wrapper returns `True` whenever the client raises no error. -/
theorem deleteItem_absent_no_raise (col : Collection) (id : String)
    (h : ∀ e ∈ col, e.id ≠ id) :
    ChromaKnowledgeBase.deleteItem col id = (true, col) := by
  have : col.filter (fun e => e.id != id) = col :=
    List.filter_eq_self.mpr (fun e he => by simpa using h e he)
  simp [ChromaKnowledgeBase.deleteItem, clientDelete, this]

/-- C7 witness: deleting the absent id `x` from a one-item store. -/
theorem deleteItem_absent_no_raise_witness :
    ChromaKnowledgeBase.deleteItem [⟨"a", "doc", []⟩] "x" = (true, [⟨"a", "doc", []⟩]) :=
  deleteItem_absent_no_raise [⟨"a", "doc", []⟩] "x" (by decide)

